import Mathlib

/-!
Verification of the Coast & Barista FIRE Monte Carlo engine
(`run_monte_carlo` in `src/barista.py`) and its reporting step.

Modelling choices (shallow embedding):
* Balances and returns are rationals (`ℚ`), standing for the Python floats.
* The global numpy random source is a stream `ω : ℕ → ℚ` of standard-normal
  draws together with an explicit position counter `k`; a call
  `np.random.normal(loc, scale)` at position `k` yields `loc + scale * ω k`
  and advances the position to `k + 1` (numpy's `normal(loc, scale)` is
  `loc + scale * z` for a fresh standard-normal `z`).
* `np.random.seed(seed)` is modelled by selecting the stream from a
  seed-indexed family `g : ℤ → ℕ → ℚ` (and resetting the position to 0),
  replacing whatever ambient stream was in effect; an absent/zero seed
  leaves the ambient stream in place.
-/

namespace Barista

/-- The scalar parameters of `run_monte_carlo` (the seed is passed
separately, as in the source). -/
structure SimParams where
  current_age : ℤ
  coast_age : ℤ
  retire_age : ℤ
  life_expectancy : ℤ
  current_savings : ℚ
  contrib_full : ℚ
  contrib_barista : ℚ
  withdraw_retire : ℚ
  mean_return : ℚ
  return_vol : ℚ
  n_sims : ℕ
deriving DecidableEq, Repr

/-- The §3 invariants on a parameter set. -/
def ParamsValid (p : SimParams) : Prop :=
  p.current_age ≤ p.coast_age ∧ p.coast_age ≤ p.retire_age ∧
  p.retire_age ≤ p.life_expectancy ∧ 1 ≤ p.n_sims ∧
  0 ≤ p.current_age ∧ 0 ≤ p.current_savings ∧ 0 ≤ p.contrib_full ∧
  0 ≤ p.contrib_barista ∧ 0 ≤ p.withdraw_retire

instance (p : SimParams) : Decidable (ParamsValid p) := by
  unfold ParamsValid; infer_instance

/-- `np.random.normal(loc, scale)` applied to the standard-normal draw `z`. -/
def normalDraw (loc scale z : ℚ) : ℚ := loc + scale * z

/-- One iteration of the full-horizon year loop (src/barista.py lines 45-53):
growth by the drawn return, then the three-regime cash flow keyed on
`age = current_age + year`. -/
def fullStep (p : SimParams) (bal : ℚ) (year : ℕ) (z : ℚ) : ℚ :=
  let r := normalDraw (p.mean_return / 100) (p.return_vol / 100) z
  let b := bal * (1 + r)
  let age := p.current_age + (year : ℤ)
  if age < p.coast_age then b + p.contrib_full
  else if age < p.retire_age then b + p.contrib_barista
  else b - p.withdraw_retire

/-- The full-horizon year loop (src/barista.py lines 44-56): `fuel` years
remain, `year` is the current offset, `k` the stream position.  Returns the
final balance and the stream position after the loop; a balance that ends a
year `≤ 0` is clamped to `0` and the loop breaks. -/
def fullLoop (p : SimParams) (ω : ℕ → ℚ) :
    ℕ → ℚ → ℕ → ℕ → ℚ × ℕ
  | 0, bal, _, k => (bal, k)
  | fuel + 1, bal, year, k =>
    let b := fullStep p bal year (ω k)
    if b ≤ 0 then (0, k + 1)
    else fullLoop p ω fuel b (year + 1) (k + 1)

/-- One iteration of the retirement-horizon year loop
(src/barista.py lines 62-68): growth, then the two-regime cash flow. -/
def retireStep (p : SimParams) (bal : ℚ) (year : ℕ) (z : ℚ) : ℚ :=
  let r := normalDraw (p.mean_return / 100) (p.return_vol / 100) z
  let b := bal * (1 + r)
  let age := p.current_age + (year : ℤ)
  if age < p.coast_age then b + p.contrib_full
  else b + p.contrib_barista

/-- The retirement-horizon year loop (src/barista.py lines 61-71). -/
def retireLoop (p : SimParams) (ω : ℕ → ℚ) :
    ℕ → ℚ → ℕ → ℕ → ℚ × ℕ
  | 0, bal, _, k => (bal, k)
  | fuel + 1, bal, year, k =>
    let b := retireStep p bal year (ω k)
    if b ≤ 0 then (0, k + 1)
    else retireLoop p ω fuel b (year + 1) (k + 1)

/-- `years_total = life_expectancy - current_age`, as a loop bound
(`range` of a negative is empty, hence `toNat`). -/
def yearsTotal (p : SimParams) : ℕ := (p.life_expectancy - p.current_age).toNat

/-- `years_to_retire = retire_age - current_age`, as a loop bound. -/
def yearsToRetire (p : SimParams) : ℕ := (p.retire_age - p.current_age).toNat

/-- One trial (one iteration of the `for i in range(n_sims)` loop): the
full-horizon path, then the retirement-horizon path continuing on the same
stream.  Returns `(final_balance, retire_balance, next stream position)`. -/
def runTrial (p : SimParams) (ω : ℕ → ℚ) (k : ℕ) : ℚ × ℚ × ℕ :=
  let f := fullLoop p ω (yearsTotal p) p.current_savings 0 k
  let r := retireLoop p ω (yearsToRetire p) p.current_savings 0 f.2
  (f.1, r.1, r.2)

/-- The trial loop: `n` trials starting at stream position `k`, producing
the `final_balances` list, the `retire_balances` list and the final stream
position. -/
def runSims (p : SimParams) (ω : ℕ → ℚ) :
    ℕ → ℕ → List ℚ × List ℚ × ℕ
  | 0, k => ([], [], k)
  | n + 1, k =>
    let t := runTrial p ω k
    let rest := runSims p ω n t.2.2
    (t.1 :: rest.1, t.2.1 :: rest.2.1, rest.2.2)

/-- `run_monte_carlo` given the post-seeding standard-normal stream `ω`:
the pair `(final_balances, retire_balances)`. -/
def run_monte_carlo (p : SimParams) (ω : ℕ → ℚ) : List ℚ × List ℚ :=
  let s := runSims p ω p.n_sims 0
  (s.1, s.2.1)

/-- `run_monte_carlo` with the seeding preamble (src/barista.py lines
33-34): a non-zero `seed` reseeds the global generator, i.e. selects the
stream `g seed` from the seed-indexed family `g`; a zero seed (the UI
passes `None` then) leaves the ambient stream in effect. -/
def run_monte_carlo_seeded (p : SimParams) (seed : ℤ) (g : ℤ → ℕ → ℚ)
    (ambient : ℕ → ℚ) : List ℚ × List ℚ :=
  run_monte_carlo p (if seed ≠ 0 then g seed else ambient)

end Barista

namespace Barista

/-- C2 helper: lengths of the two lists produced by the trial loop. -/
theorem runSims_lengths (p : SimParams) (ω : ℕ → ℚ) :
    ∀ n k, (runSims p ω n k).1.length = n ∧ (runSims p ω n k).2.1.length = n := by
  intro n
  induction n with
  | zero => intro k; simp [runSims]
  | succ m ih =>
    intro k
    simp [runSims, ih]

/-- C2: `run_monte_carlo` returns exactly two sequences, each of length
exactly `n_sims`, for every parameter set and stream. -/
theorem length_invariant (p : SimParams) (ω : ℕ → ℚ) :
    (run_monte_carlo p ω).1.length = p.n_sims ∧
    (run_monte_carlo p ω).2.length = p.n_sims := by
  unfold run_monte_carlo
  exact runSims_lengths p ω p.n_sims 0

/-- C1: with a non-zero seed and valid parameters, the output does not
depend on the ambient generator state, so two calls with identical
parameters and the same non-zero seed produce element-wise identical
`final_balances` and `retire_balances`. -/
theorem determinism (p : SimParams) (seed : ℤ) (g : ℤ → ℕ → ℚ)
    (a₁ a₂ : ℕ → ℚ) (hv : ParamsValid p) (hs : seed ≠ 0) :
    run_monte_carlo_seeded p seed g a₁ = run_monte_carlo_seeded p seed g a₂ := by
  unfold run_monte_carlo_seeded
  simp [hs]

/-- The UI's default parameter set (src/barista.py sidebar defaults), with
a small trial count. -/
def pDefault : SimParams :=
  ⟨43, 50, 60, 85, 1090000, 24000, 5000, 95000, 15/2, 10, 3⟩

/-- Witness for C1 at the default parameters, seed 1, and two distinct
ambient streams. -/
theorem determinism_witness :
    run_monte_carlo_seeded pDefault 1 (fun _ _ => 0) (fun _ => 1) =
      run_monte_carlo_seeded pDefault 1 (fun _ _ => 0) (fun _ => 2) :=
  determinism pDefault 1 (fun _ _ => 0) (fun _ => 1) (fun _ => 2)
    (by decide) (by decide)

/-- C8 helper: with zero full-horizon years every trial's final balance is
the untouched starting savings. -/
theorem runSims_final_of_yearsTotal_zero (p : SimParams) (ω : ℕ → ℚ)
    (h : yearsTotal p = 0) :
    ∀ n k, (runSims p ω n k).1 = List.replicate n p.current_savings := by
  intro n
  induction n with
  | zero => intro k; simp [runSims]
  | succ m ih =>
    intro k
    simp [runSims, runTrial, h, fullLoop, ih, List.replicate_succ]

/-- C8 helper: with zero retirement-horizon years every trial's retirement
balance is the untouched starting savings. -/
theorem runSims_retire_of_yearsToRetire_zero (p : SimParams) (ω : ℕ → ℚ)
    (h : yearsToRetire p = 0) :
    ∀ n k, (runSims p ω n k).2.1 = List.replicate n p.current_savings := by
  intro n
  induction n with
  | zero => intro k; simp [runSims]
  | succ m ih =>
    intro k
    simp [runSims, runTrial, h, retireLoop, ih, List.replicate_succ]

/-- C8: if `life_expectancy ≤ current_age` the full-horizon loop runs zero
iterations and every `final_balance` is `current_savings`; if
`retire_age ≤ current_age` the retirement loop runs zero iterations and
every `retire_balance` is `current_savings` (no depletion check applied in
either case). -/
theorem zero_years_boundary (p : SimParams) (ω : ℕ → ℚ) :
    (p.life_expectancy ≤ p.current_age →
      (run_monte_carlo p ω).1 = List.replicate p.n_sims p.current_savings) ∧
    (p.retire_age ≤ p.current_age →
      (run_monte_carlo p ω).2 = List.replicate p.n_sims p.current_savings) := by
  constructor
  · intro h
    have hz : yearsTotal p = 0 := by
      unfold yearsTotal; omega
    unfold run_monte_carlo
    exact runSims_final_of_yearsTotal_zero p ω hz p.n_sims 0
  · intro h
    have hz : yearsToRetire p = 0 := by
      unfold yearsToRetire; omega
    unfold run_monte_carlo
    exact runSims_retire_of_yearsToRetire_zero p ω hz p.n_sims 0

/-- C6 helper: the full-horizon loop never returns a negative balance when
started from a non-negative one (it either clamps to `0` or keeps a
positive running balance). -/
theorem fullLoop_fst_nonneg (p : SimParams) (ω : ℕ → ℚ) :
    ∀ fuel bal year k, 0 ≤ bal → 0 ≤ (fullLoop p ω fuel bal year k).1 := by
  intro fuel
  induction fuel with
  | zero => intro bal year k hb; simpa [fullLoop] using hb
  | succ m ih =>
    intro bal year k hb
    by_cases hdep : fullStep p bal year (ω k) ≤ 0
    · simp [fullLoop, hdep]
    · simpa [fullLoop, hdep] using ih _ (year + 1) (k + 1) (le_of_not_le hdep)

/-- C6 helper: the retirement-horizon loop never returns a negative
balance when started from a non-negative one. -/
theorem retireLoop_fst_nonneg (p : SimParams) (ω : ℕ → ℚ) :
    ∀ fuel bal year k, 0 ≤ bal → 0 ≤ (retireLoop p ω fuel bal year k).1 := by
  intro fuel
  induction fuel with
  | zero => intro bal year k hb; simpa [retireLoop] using hb
  | succ m ih =>
    intro bal year k hb
    by_cases hdep : retireStep p bal year (ω k) ≤ 0
    · simp [retireLoop, hdep]
    · simpa [retireLoop, hdep] using ih _ (year + 1) (k + 1) (le_of_not_le hdep)

/-- C6 helper: every entry of both lists produced by the trial loop is
non-negative when the starting savings are. -/
theorem runSims_nonneg (p : SimParams) (ω : ℕ → ℚ) (hs : 0 ≤ p.current_savings) :
    ∀ n k, (∀ x ∈ (runSims p ω n k).1, 0 ≤ x) ∧
      (∀ x ∈ (runSims p ω n k).2.1, 0 ≤ x) := by
  intro n
  induction n with
  | zero => intro k; simp [runSims]
  | succ m ih =>
    intro k
    refine ⟨?_, ?_⟩ <;> intro x hx <;>
      simp only [runSims, List.mem_cons] at hx <;>
      rcases hx with hx | hx
    · exact hx ▸ fullLoop_fst_nonneg p ω _ _ _ _ hs
    · exact (ih _).1 x hx
    · exact hx ▸ retireLoop_fst_nonneg p ω _ _ _ _ hs
    · exact (ih _).2 x hx

/-- C6: under the §3 invariants every value in both output sequences is
`≥ 0`, whatever the drawn returns and however large `withdraw_retire`. -/
theorem non_negativity (p : SimParams) (ω : ℕ → ℚ) (hv : ParamsValid p) :
    (∀ x ∈ (run_monte_carlo p ω).1, 0 ≤ x) ∧
    (∀ x ∈ (run_monte_carlo p ω).2, 0 ≤ x) := by
  unfold run_monte_carlo
  exact runSims_nonneg p ω hv.2.2.2.2.2.1 p.n_sims 0

/-- A tiny valid parameter set whose single trial can be evaluated by
`decide`. -/
def pTiny : SimParams := ⟨0, 0, 0, 1, 1, 0, 0, 0, 0, 0, 1⟩

/-- Witness for C6 at `pTiny` and the all-zero stream: the head of each
output list is non-negative. -/
theorem non_negativity_witness :
    0 ≤ (run_monte_carlo pTiny (fun _ => 0)).1.headI ∧
    0 ≤ (run_monte_carlo pTiny (fun _ => 0)).2.headI :=
  ⟨(non_negativity pTiny (fun _ => 0) (by decide)).1 _ (by
      norm_num [run_monte_carlo, runSims, runTrial, yearsTotal, yearsToRetire,
        pTiny, fullLoop, retireLoop, fullStep, retireStep, normalDraw]),
   (non_negativity pTiny (fun _ => 0) (by decide)).2 _ (by
      norm_num [run_monte_carlo, runSims, runTrial, yearsTotal, yearsToRetire,
        pTiny, fullLoop, retireLoop, fullStep, retireStep, normalDraw])⟩

/-- C4: in either loop, as soon as a year ends with balance `≤ 0` the path
is clamped to exactly `0` and the loop stops: whatever fuel remained, the
result is `(0, k + 1)` — exactly one more draw was consumed, so no later
growth, contribution or withdrawal happens and the path never becomes
positive again. -/
theorem depletion_terminal (p : SimParams) (ω : ℕ → ℚ) (fuel : ℕ)
    (bal : ℚ) (year k : ℕ) :
    (fullStep p bal year (ω k) ≤ 0 →
      fullLoop p ω (fuel + 1) bal year k = (0, k + 1)) ∧
    (retireStep p bal year (ω k) ≤ 0 →
      retireLoop p ω (fuel + 1) bal year k = (0, k + 1)) := by
  constructor
  · intro h; simp [fullLoop, h]
  · intro h; simp [retireLoop, h]

/-- A parameter set whose very first year depletes both paths when the
drawn return is `-200%`. -/
def pDeplete : SimParams := ⟨0, 0, 0, 1, 1, 0, 0, 0, 0, 100, 1⟩

/-- Witness for C4: at `pDeplete` with a constant `-2` standard-normal
stream, both loops deplete in the first year and return `(0, 1)` even with
ten years of fuel left. -/
theorem depletion_terminal_witness :
    fullLoop pDeplete (fun _ => -2) 10 1 0 0 = (0, 1) ∧
    retireLoop pDeplete (fun _ => -2) 10 1 0 0 = (0, 1) :=
  ⟨(depletion_terminal pDeplete (fun _ => -2) 9 1 0 0).1
      (by norm_num [fullStep, normalDraw, pDeplete]),
   (depletion_terminal pDeplete (fun _ => -2) 9 1 0 0).2
      (by norm_num [retireStep, normalDraw, pDeplete])⟩

/-- A parameter set with `current_age = retire_age = life_expectancy`. -/
def pSameAges : SimParams := ⟨60, 60, 60, 60, 100, 24000, 5000, 95000, 5, 10, 3⟩

/-- Witness for C8: with equal current, retirement and life-expectancy
ages, both output sequences are constantly `current_savings`. -/
theorem zero_years_boundary_witness :
    (run_monte_carlo pSameAges (fun _ => 0)).1 = List.replicate 3 100 ∧
    (run_monte_carlo pSameAges (fun _ => 0)).2 = List.replicate 3 100 :=
  ⟨(zero_years_boundary pSameAges (fun _ => 0)).1 (by decide),
   (zero_years_boundary pSameAges (fun _ => 0)).2 (by decide)⟩

/-- The deterministic fixed-rate year step of spec §8 property 6: growth
by `1 + mean_return/100`, then the three-regime cash flow. -/
def fixedRateStepFull (p : SimParams) (bal : ℚ) (year : ℕ) : ℚ :=
  let b := bal * (1 + p.mean_return / 100)
  let age := p.current_age + (year : ℤ)
  if age < p.coast_age then b + p.contrib_full
  else if age < p.retire_age then b + p.contrib_barista
  else b - p.withdraw_retire

/-- The closed-form full-horizon iteration: fixed-rate step year by year
with the clamp-and-stop rule. -/
def fixedRateFull (p : SimParams) : ℕ → ℚ → ℕ → ℚ
  | 0, bal, _ => bal
  | fuel + 1, bal, year =>
    let b := fixedRateStepFull p bal year
    if b ≤ 0 then 0 else fixedRateFull p fuel b (year + 1)

/-- The deterministic fixed-rate year step for the retirement horizon. -/
def fixedRateStepRetire (p : SimParams) (bal : ℚ) (year : ℕ) : ℚ :=
  let b := bal * (1 + p.mean_return / 100)
  let age := p.current_age + (year : ℤ)
  if age < p.coast_age then b + p.contrib_full
  else b + p.contrib_barista

/-- The closed-form retirement-horizon iteration. -/
def fixedRateRetire (p : SimParams) : ℕ → ℚ → ℕ → ℚ
  | 0, bal, _ => bal
  | fuel + 1, bal, year =>
    let b := fixedRateStepRetire p bal year
    if b ≤ 0 then 0 else fixedRateRetire p fuel b (year + 1)

/-- C7 helper: with zero volatility the full-horizon loop computes the
fixed-rate iteration, whatever the stream and its position. -/
theorem fullLoop_fst_of_vol_zero (p : SimParams) (hvol : p.return_vol = 0)
    (ω : ℕ → ℚ) :
    ∀ fuel bal year k,
      (fullLoop p ω fuel bal year k).1 = fixedRateFull p fuel bal year := by
  intro fuel
  induction fuel with
  | zero => intro bal year k; rfl
  | succ m ih =>
    intro bal year k
    have hstep : fullStep p bal year (ω k) = fixedRateStepFull p bal year := by
      simp [fullStep, fixedRateStepFull, normalDraw, hvol]
    by_cases hdep : fixedRateStepFull p bal year ≤ 0
    · simp [fullLoop, fixedRateFull, hstep, hdep]
    · simp [fullLoop, fixedRateFull, hstep, hdep, ih]

/-- C7 helper: with zero volatility the retirement-horizon loop computes
the fixed-rate iteration. -/
theorem retireLoop_fst_of_vol_zero (p : SimParams) (hvol : p.return_vol = 0)
    (ω : ℕ → ℚ) :
    ∀ fuel bal year k,
      (retireLoop p ω fuel bal year k).1 = fixedRateRetire p fuel bal year := by
  intro fuel
  induction fuel with
  | zero => intro bal year k; rfl
  | succ m ih =>
    intro bal year k
    have hstep : retireStep p bal year (ω k) = fixedRateStepRetire p bal year := by
      simp [retireStep, fixedRateStepRetire, normalDraw, hvol]
    by_cases hdep : fixedRateStepRetire p bal year ≤ 0
    · simp [retireLoop, fixedRateRetire, hstep, hdep]
    · simp [retireLoop, fixedRateRetire, hstep, hdep, ih]

/-- C7 helper: with zero volatility every trial produces the same
fixed-rate pair of balances. -/
theorem runSims_of_vol_zero (p : SimParams) (hvol : p.return_vol = 0)
    (ω : ℕ → ℚ) :
    ∀ n k,
      (runSims p ω n k).1 =
        List.replicate n (fixedRateFull p (yearsTotal p) p.current_savings 0) ∧
      (runSims p ω n k).2.1 =
        List.replicate n (fixedRateRetire p (yearsToRetire p) p.current_savings 0) := by
  intro n
  induction n with
  | zero => intro k; simp [runSims]
  | succ m ih =>
    intro k
    refine ⟨?_, ?_⟩ <;>
      simp only [runSims, runTrial, List.replicate_succ, List.cons.injEq]
    · exact ⟨fullLoop_fst_of_vol_zero p hvol ω _ _ _ _, (ih _).1⟩
    · exact ⟨retireLoop_fst_of_vol_zero p hvol ω _ _ _ _, (ih _).2⟩

/-- C7: with `return_vol = 0` the whole output is independent of the
stream (hence of the seed and generator state): every trial's final and
retirement balance equals the deterministic fixed-rate year-by-year
iteration, so both sequences are constant. -/
theorem zero_volatility (p : SimParams) (hvol : p.return_vol = 0) (ω : ℕ → ℚ) :
    run_monte_carlo p ω =
      (List.replicate p.n_sims (fixedRateFull p (yearsTotal p) p.current_savings 0),
       List.replicate p.n_sims (fixedRateRetire p (yearsToRetire p) p.current_savings 0)) := by
  unfold run_monte_carlo
  have h := runSims_of_vol_zero p hvol ω p.n_sims 0
  exact Prod.ext h.1 h.2

/-- The UI's default parameters with the volatility slider at `0`. -/
def pNoVol : SimParams :=
  ⟨43, 50, 60, 85, 1090000, 24000, 5000, 95000, 15/2, 0, 3⟩

/-- Witness for C7 at the zero-volatility defaults and a non-constant
stream. -/
theorem zero_volatility_witness :
    run_monte_carlo pNoVol (fun n => (n : ℚ)) =
      (List.replicate 3 (fixedRateFull pNoVol (yearsTotal pNoVol) 1090000 0),
       List.replicate 3 (fixedRateRetire pNoVol (yearsToRetire pNoVol) 1090000 0)) :=
  zero_volatility pNoVol (by decide) (fun n => (n : ℚ))

/-- The cash-flow rule of spec §4.1 step 2c, written from the spec: select
exactly one flow by the age. -/
def specCashFlow (p : SimParams) (age : ℤ) (b : ℚ) : ℚ :=
  if age < p.coast_age then b + p.contrib_full
  else if age < p.retire_age then b + p.contrib_barista
  else b - p.withdraw_retire

/-- Spec §4.1 step 2, written from the spec: at each year offset `y` the
balance is first multiplied by `1 + draw y` — `draw y` being the fresh
year-`y` return — then the single age-selected cash flow is applied, then
the clamp-and-stop rule. -/
def specFullPath (p : SimParams) (draw : ℕ → ℚ) : ℕ → ℚ → ℕ → ℚ
  | 0, bal, _ => bal
  | fuel + 1, bal, y =>
    let b := specCashFlow p (p.current_age + (y : ℤ)) (bal * (1 + draw y))
    if b ≤ 0 then 0 else specFullPath p draw fuel b (y + 1)

/-- C3: the engine's full-horizon loop follows the spec's per-year rule:
each year offset `y` reached before depletion multiplies the balance by
`1 + r` where `r = mean_return/100 + (return_vol/100) · z` is the normal
draw of mean `mean_return/100` and standard deviation `return_vol/100`
built from the fresh stream element for that year, and then applies the
single cash flow selected by `age = current_age + y`. -/
theorem full_year_rule (p : SimParams) (ω : ℕ → ℚ) :
    ∀ fuel bal year k,
      (fullLoop p ω fuel bal year k).1 =
        specFullPath p
          (fun y => normalDraw (p.mean_return / 100) (p.return_vol / 100)
            (ω (k + y - year))) fuel bal year := by
  intro fuel
  induction fuel with
  | zero => intro bal year k; rfl
  | succ m ih =>
    intro bal year k
    have hstep : specCashFlow p (p.current_age + (year : ℤ))
        (bal * (1 + normalDraw (p.mean_return / 100) (p.return_vol / 100)
          (ω k))) = fullStep p bal year (ω k) := by
      simp [specCashFlow, fullStep]
    have hfun : (fun y => normalDraw (p.mean_return / 100) (p.return_vol / 100)
          (ω (k + 1 + y - (year + 1)))) =
        (fun y => normalDraw (p.mean_return / 100) (p.return_vol / 100)
          (ω (k + y - year))) := by
      funext y
      have harg : k + 1 + y - (year + 1) = k + y - year := by omega
      rw [harg]
    by_cases hdep : fullStep p bal year (ω k) ≤ 0
    · simp [fullLoop, specFullPath, hstep, hdep]
    · have hrec := ih (fullStep p bal year (ω k)) (year + 1) (k + 1)
      rw [hfun] at hrec
      simp [fullLoop, specFullPath, hstep, hdep, hrec]

/-- C10 helper: a trial that starts at balance `0` with `contrib_full = 0`
and `current_age < coast_age` ends its first year at exactly `0`, so the
clamp fires immediately. -/
theorem fullLoop_fst_of_zero_start (p : SimParams) (ω : ℕ → ℚ)
    (h1 : p.current_age < p.coast_age) (h4 : p.contrib_full = 0) :
    ∀ m k, (fullLoop p ω (m + 1) 0 0 k).1 = 0 := by
  intro m k
  have hstep : fullStep p 0 0 (ω k) = 0 := by
    simp [fullStep, normalDraw, h1, h4]
  simp [fullLoop, hstep]

/-- C10: a year ending at exactly `0` counts as depletion even when no
withdrawal happened: with `current_age < coast_age ≤ life_expectancy`,
zero starting savings and zero full-time contribution, every trial's
final balance is `0`, whatever `contrib_barista`, `withdraw_retire` and
the drawn returns. -/
theorem zero_start_absorbed (p : SimParams) (ω : ℕ → ℚ)
    (h1 : p.current_age < p.coast_age) (h2 : p.coast_age ≤ p.life_expectancy)
    (h3 : p.current_savings = 0) (h4 : p.contrib_full = 0) :
    (run_monte_carlo p ω).1 = List.replicate p.n_sims 0 := by
  obtain ⟨m, hm⟩ : ∃ m, yearsTotal p = m + 1 := by
    have hpos : 0 < yearsTotal p := by
      unfold yearsTotal; omega
    exact ⟨yearsTotal p - 1, by omega⟩
  have htrial : ∀ k, (fullLoop p ω (yearsTotal p) p.current_savings 0 k).1 = 0 := by
    intro k
    rw [hm, h3]
    exact fullLoop_fst_of_zero_start p ω h1 h4 m k
  have hlist : ∀ n k, (runSims p ω n k).1 = List.replicate n 0 := by
    intro n
    induction n with
    | zero => intro k; simp [runSims]
    | succ j ih =>
      intro k
      simp [runSims, runTrial, htrial, ih, List.replicate_succ]
  unfold run_monte_carlo
  exact hlist p.n_sims 0

/-- A parameter set starting at zero savings with no full-time
contribution but positive part-time contribution and withdrawal. -/
def pZeroStart : SimParams := ⟨0, 1, 1, 1, 0, 0, 5, 7, 0, 0, 2⟩

/-- Witness for C10 at `pZeroStart` and a non-constant stream. -/
theorem zero_start_absorbed_witness :
    (run_monte_carlo pZeroStart (fun n => (n : ℚ))).1 = List.replicate 2 0 :=
  zero_start_absorbed pZeroStart (fun n => (n : ℚ))
    (by decide) (by decide) (by decide) (by decide)

/-- `years_retirement = max(0, life_expectancy - retire_age)` and
`target = withdraw_retire * years_retirement`
(src/barista.py lines 147-148). -/
def targetNeed (p : SimParams) : ℚ :=
  p.withdraw_retire * ((max 0 (p.life_expectancy - p.retire_age) : ℤ) : ℚ)

/-- `float(np.mean(retires >= target))` (src/barista.py line 149): the
mean of the element-wise boolean comparison, i.e. the count of entries
`≥ t` over the length. -/
def probOnTrack (retires : List ℚ) (t : ℚ) : ℚ :=
  (retires.countP (fun x => decide (t ≤ x)) : ℚ) / retires.length

/-- `float(np.mean(finals > 0))` (src/barista.py line 150). -/
def probSurvives (finals : List ℚ) : ℚ :=
  (finals.countP (fun x => decide (0 < x)) : ℚ) / finals.length

/-- Modelled from the spec (§6): the fraction of a sequence's entries
satisfying a predicate. -/
def fractionOf (P : ℚ → Prop) [DecidablePred P] (xs : List ℚ) : ℚ :=
  ((xs.filter (fun x => decide (P x))).length : ℚ) / xs.length

/-- C9: the reporting step computes `target = withdraw_retire ×
max(0, life_expectancy − retire_age)`, `probabilityOnTrack` as the
fraction of retirement balances `≥ target` (inclusive comparison), and
`probabilitySurvives` as the fraction of final balances strictly `> 0`. -/
theorem reporting_rule (p : SimParams) (finals retires : List ℚ) :
    targetNeed p =
      p.withdraw_retire * ((max 0 (p.life_expectancy - p.retire_age) : ℤ) : ℚ) ∧
    probOnTrack retires (targetNeed p) =
      fractionOf (fun x => targetNeed p ≤ x) retires ∧
    probSurvives finals = fractionOf (fun x => 0 < x) finals := by
  refine ⟨rfl, ?_, ?_⟩
  · unfold probOnTrack fractionOf
    rw [List.countP_eq_length_filter]
  · unfold probSurvives fractionOf
    rw [List.countP_eq_length_filter]

/-- Whether the full-horizon loop hits the depletion break (and so
consumes fewer than `fuel` draws). -/
def fullBroke (p : SimParams) (ω : ℕ → ℚ) : ℕ → ℚ → ℕ → ℕ → Bool
  | 0, _, _, _ => false
  | fuel + 1, bal, year, k =>
    let b := fullStep p bal year (ω k)
    if b ≤ 0 then true else fullBroke p ω fuel b (year + 1) (k + 1)

/-- Whether any of `n` consecutive trials' full-horizon path hits the
depletion break, starting at stream position `k`. -/
def anyFullBroke (p : SimParams) (ω : ℕ → ℚ) : ℕ → ℕ → Bool
  | 0, _ => false
  | n + 1, k =>
    fullBroke p ω (yearsTotal p) p.current_savings 0 k ||
      anyFullBroke p ω n (runTrial p ω k).2.2

/-- Base parameters for the C5 counterexample: retirement at age 1, life
expectancy 3, volatility 100%, one trial. -/
def pWithdrawA : SimParams := ⟨0, 0, 1, 3, 100, 0, 0, 10, 0, 100, 1⟩

/-- The same parameters with only the retirement withdrawal changed. -/
def pWithdrawB : SimParams := ⟨0, 0, 1, 3, 100, 0, 0, 1000, 0, 100, 1⟩

/-- A standard-normal stream that is `1` at position 2 and `0` elsewhere. -/
def streamC5 : ℕ → ℚ := fun n => if n = 2 then 1 else 0

/-- C5 counterexample: two valid parameter sets identical except in
`withdraw_retire`, run with the same non-zero seed, produce different
`retire_balances`: the larger withdrawal depletes the full-horizon path a
year earlier, so the retirement path starts one position earlier in the
shared stream and reads a different draw. -/
theorem retire_withdraw_dependence :
    ParamsValid pWithdrawA ∧ ParamsValid pWithdrawB ∧
    pWithdrawB = { pWithdrawA with withdraw_retire := 1000 } ∧
    (run_monte_carlo_seeded pWithdrawA 1 (fun _ => streamC5) (fun _ => 0)).2 ≠
      (run_monte_carlo_seeded pWithdrawB 1 (fun _ => streamC5) (fun _ => 0)).2 := by
  refine ⟨by decide, by decide, by decide, ?_⟩
  norm_num [run_monte_carlo_seeded, run_monte_carlo, runSims, runTrial,
    yearsTotal, yearsToRetire, pWithdrawA, pWithdrawB, fullLoop, retireLoop,
    fullStep, retireStep, normalDraw, streamC5]

/-- C5 helper: the retirement loop reads no `withdraw_retire`, so two
parameter sets agreeing on every other relevant field step identically. -/
theorem retireLoop_congr (p₁ p₂ : SimParams)
    (hc : p₁.current_age = p₂.current_age) (hco : p₁.coast_age = p₂.coast_age)
    (hcf : p₁.contrib_full = p₂.contrib_full)
    (hcb : p₁.contrib_barista = p₂.contrib_barista)
    (hm : p₁.mean_return = p₂.mean_return)
    (hv : p₁.return_vol = p₂.return_vol) (ω : ℕ → ℚ) :
    ∀ fuel bal year k,
      retireLoop p₁ ω fuel bal year k = retireLoop p₂ ω fuel bal year k := by
  have hstep : ∀ bal year z, retireStep p₁ bal year z = retireStep p₂ bal year z := by
    intro bal year z
    simp [retireStep, normalDraw, hc, hco, hcf, hcb, hm, hv]
  intro fuel
  induction fuel with
  | zero => intro bal year k; rfl
  | succ m ih =>
    intro bal year k
    simp [retireLoop, hstep, ih]

/-- C5 helper: a full-horizon loop that never hits the depletion break
consumes exactly `fuel` draws. -/
theorem fullLoop_snd_of_not_broke (p : SimParams) (ω : ℕ → ℚ) :
    ∀ fuel bal year k, fullBroke p ω fuel bal year k = false →
      (fullLoop p ω fuel bal year k).2 = k + fuel := by
  intro fuel
  induction fuel with
  | zero => intro bal year k _; simp [fullLoop]
  | succ m ih =>
    intro bal year k hb
    by_cases hdep : fullStep p bal year (ω k) ≤ 0
    · simp [fullBroke, hdep] at hb
    · have hrec := ih (fullStep p bal year (ω k)) (year + 1) (k + 1)
        (by simpa [fullBroke, hdep] using hb)
      rw [show fullLoop p ω (m + 1) bal year k =
        fullLoop p ω m (fullStep p bal year (ω k)) (year + 1) (k + 1) from by
          simp [fullLoop, hdep]]
      rw [hrec]
      omega

/-- C5 helper: with no full-horizon depletion in either run, the two
runs' retirement outputs and stream positions coincide trial by trial. -/
theorem runSims_retire_congr (p₁ p₂ : SimParams)
    (hc : p₁.current_age = p₂.current_age) (hco : p₁.coast_age = p₂.coast_age)
    (hr : p₁.retire_age = p₂.retire_age)
    (hl : p₁.life_expectancy = p₂.life_expectancy)
    (hsav : p₁.current_savings = p₂.current_savings)
    (hcf : p₁.contrib_full = p₂.contrib_full)
    (hcb : p₁.contrib_barista = p₂.contrib_barista)
    (hm : p₁.mean_return = p₂.mean_return)
    (hv : p₁.return_vol = p₂.return_vol) (ω : ℕ → ℚ) :
    ∀ n k, anyFullBroke p₁ ω n k = false → anyFullBroke p₂ ω n k = false →
      (runSims p₁ ω n k).2.1 = (runSims p₂ ω n k).2.1 ∧
      (runSims p₁ ω n k).2.2 = (runSims p₂ ω n k).2.2 := by
  have hyt : yearsTotal p₁ = yearsTotal p₂ := by
    unfold yearsTotal; rw [hl, hc]
  have hytr : yearsToRetire p₁ = yearsToRetire p₂ := by
    unfold yearsToRetire; rw [hr, hc]
  intro n
  induction n with
  | zero => intro k _ _; simp [runSims]
  | succ m ih =>
    intro k h₁ h₂
    simp only [anyFullBroke, Bool.or_eq_false_iff] at h₁ h₂
    have hk1 : (fullLoop p₁ ω (yearsTotal p₁) p₁.current_savings 0 k).2 =
        k + yearsTotal p₁ :=
      fullLoop_snd_of_not_broke p₁ ω _ _ _ _ h₁.1
    have hk2 : (fullLoop p₂ ω (yearsTotal p₂) p₂.current_savings 0 k).2 =
        k + yearsTotal p₁ := by
      rw [fullLoop_snd_of_not_broke p₂ ω _ _ _ _ h₂.1, hyt]
    have hret : retireLoop p₁ ω (yearsToRetire p₁) p₁.current_savings 0
        (k + yearsTotal p₁) =
        retireLoop p₂ ω (yearsToRetire p₂) p₂.current_savings 0
          (k + yearsTotal p₁) := by
      rw [hytr, hsav]
      exact retireLoop_congr p₁ p₂ hc hco hcf hcb hm hv ω _ _ _ _
    have hV : (runTrial p₁ ω k).2.1 = (runTrial p₂ ω k).2.1 := by
      simp only [runTrial]
      rw [hk1, hk2, hret]
    have hN : (runTrial p₁ ω k).2.2 = (runTrial p₂ ω k).2.2 := by
      simp only [runTrial]
      rw [hk1, hk2, hret]
    have hrec := ih ((runTrial p₁ ω k).2.2) h₁.2 (by rw [hN]; exact h₂.2)
    constructor
    · show (runTrial p₁ ω k).2.1 ::
          (runSims p₁ ω m (runTrial p₁ ω k).2.2).2.1 =
        (runTrial p₂ ω k).2.1 ::
          (runSims p₂ ω m (runTrial p₂ ω k).2.2).2.1
      rw [hV, ← hN, hrec.1]
    · show (runSims p₁ ω m (runTrial p₁ ω k).2.2).2.2 =
        (runSims p₂ ω m (runTrial p₂ ω k).2.2).2.2
      rw [← hN, hrec.2]

/-- C5 amended: with the same non-zero seed, two valid parameter sets
identical except in `withdraw_retire` return element-wise identical
`retire_balances` provided no trial's full-horizon path hits the depletion
clamp under either parameter set; a full-horizon depletion consumes fewer
draws from the shared stream and can shift the retirement path's draws. -/
theorem retire_indep_withdraw (p₁ p₂ : SimParams) (seed : ℤ)
    (g : ℤ → ℕ → ℚ) (a : ℕ → ℚ)
    (hc : p₁.current_age = p₂.current_age) (hco : p₁.coast_age = p₂.coast_age)
    (hr : p₁.retire_age = p₂.retire_age)
    (hl : p₁.life_expectancy = p₂.life_expectancy)
    (hsav : p₁.current_savings = p₂.current_savings)
    (hcf : p₁.contrib_full = p₂.contrib_full)
    (hcb : p₁.contrib_barista = p₂.contrib_barista)
    (hm : p₁.mean_return = p₂.mean_return)
    (hv : p₁.return_vol = p₂.return_vol) (hn : p₁.n_sims = p₂.n_sims)
    (hseed : seed ≠ 0)
    (h₁ : anyFullBroke p₁ (g seed) p₁.n_sims 0 = false)
    (h₂ : anyFullBroke p₂ (g seed) p₂.n_sims 0 = false) :
    (run_monte_carlo_seeded p₁ seed g a).2 =
      (run_monte_carlo_seeded p₂ seed g a).2 := by
  unfold run_monte_carlo_seeded run_monte_carlo
  simp only [hseed, ne_eq, not_false_iff, if_true]
  rw [hn] at h₁ ⊢
  exact (runSims_retire_congr p₁ p₂ hc hco hr hl hsav hcf hcb hm hv
    (g seed) p₂.n_sims 0 h₁ h₂).1

/-- Parameters for the C5 amended witness: no trial depletes. -/
def pSafeA : SimParams := ⟨0, 0, 1, 2, 100, 0, 0, 1, 0, 0, 1⟩

/-- The same parameters with only the retirement withdrawal changed. -/
def pSafeB : SimParams := ⟨0, 0, 1, 2, 100, 0, 0, 2, 0, 0, 1⟩

/-- Witness for the amended C5: with no depletion in either run, the
retirement sequences coincide. -/
theorem retire_indep_withdraw_witness :
    (run_monte_carlo_seeded pSafeA 1 (fun _ n => (n : ℚ)) (fun _ => 0)).2 =
      (run_monte_carlo_seeded pSafeB 1 (fun _ n => (n : ℚ)) (fun _ => 0)).2 :=
  retire_indep_withdraw pSafeA pSafeB 1 (fun _ n => (n : ℚ)) (fun _ => 0)
    rfl rfl rfl rfl rfl rfl rfl rfl rfl rfl (by decide)
    (by norm_num [anyFullBroke, fullBroke, fullStep, normalDraw, yearsTotal,
      pSafeA])
    (by norm_num [anyFullBroke, fullBroke, fullStep, normalDraw, yearsTotal,
      pSafeB])

end Barista
